import Mathlib

/-!
Shallow embedding of `fedmsg/meta/__init__.py` (the fedmsg metadata module).

Python dicts holding JSON-like data are modelled as association lists from
`String` to `Value`; Python exceptions are modelled by the error type `PyErr`
threaded through `Except`; the keyword-argument `config` dict, which the
module only ever forwards unchanged to processor methods, is folded into the
processor method closures.  Processors (plugin instances) are records of
their methods.  Logging calls are modelled as an emitted list of `LogWarning`
events.
-/

namespace FedmsgMeta

/-- JSON-like Python values stored in message dicts: strings, numbers,
lists, sets of strings, dicts of strings, and `None`. -/
inductive Value where
  | null : Value
  | s : String → Value
  | i : Int → Value
  | vlist : List Value → Value
  | vset : List String → Value
  | vdict : List (String × String) → Value

/-- A fedmsg message (or a conglomerate record): a dict-like mapping from
string keys to values, modelled as an association list. -/
abbrev Msg := List (String × Value)

/-- `m[k]`-style lookup: `some v` when the key is present. -/
def Msg.lookup (m : Msg) (k : String) : Option Value :=
  List.lookup k m

/-- Python `k in m` membership test on dict keys. -/
def Msg.hasKey (m : Msg) (k : String) : Bool :=
  (Msg.lookup m k).isSome

/-- Python exceptions distinguished by the module: `KeyError` (caught by
`legacy_condition`), `ProcessorsNotInitialized` (raised by the registry
sentinel), and any other exception. -/
inductive PyErr where
  | keyError (k : String)
  | processorsNotInitialized (msg : String)
  | other (s : String)
deriving Repr, DecidableEq

/-- `True` exactly on the `KeyError` constructor. -/
def PyErr.isKeyError : PyErr → Bool
  | .keyError _ => true
  | _ => false

/-- A message processor (an instance of `fedmsg.meta.base.BaseProcessor`):
a record of its methods, each already closed over `config`.  Per the
capability contract, `handle_msg` returns `None` ("no opinion") or any
other value (a claim, possibly falsy); the text accessors return a string
or `None`; `usernames`/`packages`/`objects` return sets of strings;
`emails`/`avatars` return dicts; `conglomerate` maps a batch of messages
to a new batch.  Any method may raise. -/
structure Processor where
  handle_msg : Msg → Except PyErr (Option Value)
  title : Msg → Except PyErr (Option String)
  subtitle : Msg → Except PyErr (Option String)
  link : Msg → Except PyErr (Option String)
  icon : Msg → Except PyErr (Option String)
  secondary_icon : Msg → Except PyErr (Option String)
  usernames : Msg → Except PyErr (List String)
  packages : Msg → Except PyErr (List String)
  objects : Msg → Except PyErr (List String)
  emails : Msg → Except PyErr (List (String × String))
  avatars : Msg → Except PyErr (List (String × String))
  conglomerate : List Msg → Except PyErr (List Msg)

/-- The module-global `processors` variable: either the
`ProcessorsNotInitialized` sentinel (an exception instance whose
`__iter__` and `__len__` raise it), or the list built by
`make_processors`. -/
inductive Registry where
  | uninitialized (message : String) : Registry
  | ready (procs : List Processor) : Registry

/-- The message carried by the module's initial sentinel value. -/
def sentinelMessage : String :=
  "You must first call fedmsg.meta.make_processors(**config)"

/-- The module's state before `make_processors` has been called. -/
def processorsInitial : Registry := Registry.uninitialized sentinelMessage

/-- Iterating the registry (`for processor in processors`): the sentinel's
`__iter__` raises itself. -/
def Registry.iterate : Registry → Except PyErr (List Processor)
  | .uninitialized m => .error (.processorsNotInitialized m)
  | .ready ps => .ok ps

/-- `len(processors)`: the sentinel's `__len__` is its `__iter__` and
raises it. -/
def Registry.length : Registry → Except PyErr Nat
  | .uninitialized m => .error (.processorsNotInitialized m)
  | .ready ps => .ok ps.length

/-- The `for`-loop body of `msg2processor`: return the first processor whose
`handle_msg(msg, **config)` result `is not None`; exceptions propagate. -/
def findClaiming : List Processor → Msg → Except PyErr (Option Processor)
  | [], _ => .ok none
  | p :: ps, msg => do
    match ← p.handle_msg msg with
    | some _ => pure (some p)
    | none => findClaiming ps msg

/-- `fedmsg.meta.msg2processor`: iterate the registry in order and return the
first processor whose `handle_msg` result is not `None`; if the loop
exhausts, return `processors[-1]` (an `IndexError` if the list is empty). -/
def msg2processor (reg : Registry) (msg : Msg) : Except PyErr Processor := do
  let procs ← reg.iterate
  match ← findClaiming procs msg with
  | some p => pure p
  | none =>
    match procs.getLast? with
    | some p => pure p
    | none => .error (.other "IndexError")

/-- `fedmsg.meta.legacy_condition(cls)`: wraps an accessor so that a
`KeyError` is converted to `cls()` (the type-correct empty value) when the
caller passed `legacy=True`; any other outcome — a normal return, a
`KeyError` without legacy mode, or any non-`KeyError` exception — passes
through unchanged. -/
def legacy_condition (cls : α) (f : Msg → Except PyErr α) (msg : Msg)
    (legacy : Bool) : Except PyErr α :=
  match f msg with
  | .ok v => .ok v
  | .error (.keyError k) => if legacy then .ok cls else .error (.keyError k)
  | .error e => .error e

/-- `fedmsg.meta.with_processor()`: if the caller did not supply a processor,
resolve one with `msg2processor` before calling the wrapped accessor. -/
def with_processor (f : Msg → Processor → Except PyErr α) (reg : Registry)
    (msg : Msg) (processor : Option Processor) : Except PyErr α :=
  match processor with
  | some p => f msg p
  | none => do f msg (← msg2processor reg msg)

/-- `fedmsg.meta.msg2title`, decorated by `legacy_condition(six.text_type)`
outside `with_processor()`. -/
def msg2title (reg : Registry) (msg : Msg) (legacy : Bool)
    (processor : Option Processor) : Except PyErr (Option String) :=
  legacy_condition (some "")
    (fun m => with_processor (fun m' p => p.title m') reg m processor) msg legacy

/-- `fedmsg.meta.msg2subtitle`. -/
def msg2subtitle (reg : Registry) (msg : Msg) (legacy : Bool)
    (processor : Option Processor) : Except PyErr (Option String) :=
  legacy_condition (some "")
    (fun m => with_processor (fun m' p => p.subtitle m') reg m processor) msg legacy

/-- `fedmsg.meta.msg2link`. -/
def msg2link (reg : Registry) (msg : Msg) (legacy : Bool)
    (processor : Option Processor) : Except PyErr (Option String) :=
  legacy_condition (some "")
    (fun m => with_processor (fun m' p => p.link m') reg m processor) msg legacy

/-- `fedmsg.meta.msg2icon`. -/
def msg2icon (reg : Registry) (msg : Msg) (legacy : Bool)
    (processor : Option Processor) : Except PyErr (Option String) :=
  legacy_condition (some "")
    (fun m => with_processor (fun m' p => p.icon m') reg m processor) msg legacy

/-- `fedmsg.meta.msg2secondary_icon`. -/
def msg2secondary_icon (reg : Registry) (msg : Msg) (legacy : Bool)
    (processor : Option Processor) : Except PyErr (Option String) :=
  legacy_condition (some "")
    (fun m => with_processor (fun m' p => p.secondary_icon m') reg m processor)
    msg legacy

/-- `fedmsg.meta.msg2usernames`, decorated by `legacy_condition(set)`. -/
def msg2usernames (reg : Registry) (msg : Msg) (legacy : Bool)
    (processor : Option Processor) : Except PyErr (List String) :=
  legacy_condition []
    (fun m => with_processor (fun m' p => p.usernames m') reg m processor) msg legacy

/-- `fedmsg.meta.msg2packages`. -/
def msg2packages (reg : Registry) (msg : Msg) (legacy : Bool)
    (processor : Option Processor) : Except PyErr (List String) :=
  legacy_condition []
    (fun m => with_processor (fun m' p => p.packages m') reg m processor) msg legacy

/-- `fedmsg.meta.msg2objects`. -/
def msg2objects (reg : Registry) (msg : Msg) (legacy : Bool)
    (processor : Option Processor) : Except PyErr (List String) :=
  legacy_condition []
    (fun m => with_processor (fun m' p => p.objects m') reg m processor) msg legacy

/-- `fedmsg.meta.msg2emails`, decorated by `legacy_condition(dict)`. -/
def msg2emails (reg : Registry) (msg : Msg) (legacy : Bool)
    (processor : Option Processor) : Except PyErr (List (String × String)) :=
  legacy_condition []
    (fun m => with_processor (fun m' p => p.emails m') reg m processor) msg legacy

/-- `fedmsg.meta.msg2avatars`. -/
def msg2avatars (reg : Registry) (msg : Msg) (legacy : Bool)
    (processor : Option Processor) : Except PyErr (List (String × String)) :=
  legacy_condition []
    (fun m => with_processor (fun m' p => p.avatars m') reg m processor) msg legacy

/-- Python `str()` as applied by `"...".format(...)` to a string-or-None
value: a string formats as itself, `None` formats as `"None"`. -/
def formatOptStr : Option String → String
  | some s => s
  | none => "None"

/-- Python `x or ''` on a string-or-None value: `None` and the falsy empty
string both fall through to `''`. -/
def pyOrEmpty : Option String → String
  | some s => if s == "" then "" else s
  | none => ""

/-- The undecorated body of `fedmsg.meta.msg2repr`: format the template
`"{title} -- {subtitle} {link}"` where `title` comes from `msg2title`
(which re-resolves the processor), `subtitle` and `link` come from the
resolved processor, and a falsy `link` is replaced with `''`. -/
def msg2repr_body (reg : Registry) (msg : Msg) (processor : Processor) :
    Except PyErr String := do
  let title ← msg2title reg msg false none
  let subtitle ← processor.subtitle msg
  let link ← processor.link msg
  pure (formatOptStr title ++ " -- " ++ formatOptStr subtitle ++ " " ++
    pyOrEmpty link)

/-- `fedmsg.meta.msg2repr`, decorated by `legacy_condition(six.text_type)`
outside `with_processor()`. -/
def msg2repr (reg : Registry) (msg : Msg) (legacy : Bool)
    (processor : Option Processor) : Except PyErr String :=
  legacy_condition ""
    (fun m => with_processor (fun m' p => msg2repr_body reg m' p) reg m processor)
    msg legacy

/-- Python `m[k]` on a dict: the value, or a raised `KeyError`. -/
def getItem (m : Msg) (k : String) : Except PyErr Value :=
  match Msg.lookup m k with
  | some v => .ok v
  | none => .error (.keyError k)

/-- A string-or-None Python value as a dict entry. -/
def optStrToValue : Option String → Value
  | some s => .s s
  | none => .null

/-- The first loop of `conglomerate`: fold the batch through every
registered processor's `conglomerate` method in registration order. -/
def runConglomerates : List Processor → List Msg → Except PyErr (List Msg)
  | [], msgs => .ok msgs
  | p :: ps, msgs => do runConglomerates ps (← p.conglomerate msgs)

/-- The fake singleton conglomerate record that `conglomerate` substitutes
for a message that no processor grouped, with the dict-literal values
evaluated in source order.  `humanize` stands for the external
`arrow.get(timestamp).humanize()` call. -/
def wrapSingleton (reg : Registry) (humanize : Value → String) (message : Msg) :
    Except PyErr Msg := do
  let subtitle ← msg2subtitle reg message false none
  let link ← msg2link reg message false none
  let icon ← msg2icon reg message false none
  let secondary_icon ← msg2secondary_icon reg message false none
  let timestamp ← getItem message "timestamp"
  let human_time := humanize timestamp
  let usernames ← msg2usernames reg message false none
  let packages ← msg2packages reg message false none
  let msg_id ← getItem message "msg_id"
  pure [("subtitle", optStrToValue subtitle),
        ("link", optStrToValue link),
        ("icon", optStrToValue icon),
        ("secondary_icon", optStrToValue secondary_icon),
        ("start_time", timestamp),
        ("end_time", timestamp),
        ("timestamp", timestamp),
        ("human_time", Value.s human_time),
        ("usernames", Value.vset usernames),
        ("packages", Value.vset packages),
        ("msg_ids", Value.vlist [msg_id])]

/-- The second loop of `conglomerate`: each element that was successfully
grouped (it has a `msg_ids` key) is kept; each still-raw message is
replaced by its fake singleton record. -/
def wrapUngrouped (reg : Registry) (humanize : Value → String) :
    List Msg → Except PyErr (List Msg)
  | [] => .ok []
  | message :: rest => do
    let m' ← if Msg.hasKey message "msg_ids" then pure message
      else wrapSingleton reg humanize message
    let rest' ← wrapUngrouped reg humanize rest
    pure (m' :: rest')

/-- `fedmsg.meta.conglomerate`: run every registered processor's
`conglomerate` step over the batch, then wrap every remaining ungrouped
message into a fake singleton conglomerate record. -/
def conglomerate (reg : Registry) (humanize : Value → String)
    (messages : List Msg) : Except PyErr (List Msg) := do
  let procs ← reg.iterate
  let grouped ← runConglomerates procs messages
  wrapUngrouped reg humanize grouped

/-- The `msg_ids` covered by one entry of a conglomerate batch: the value
list under its `msg_ids` key for a grouped record, or the entry's own
`msg_id` for a still-raw message. -/
def entryIds (m : Msg) : List Value :=
  match Msg.lookup m "msg_ids" with
  | some (Value.vlist l) => l
  | some _ => []
  | none =>
    match Msg.lookup m "msg_id" with
    | some v => [v]
    | none => []

/-- Modelled from the spec: `fedmsg.meta.default.DefaultProcessor` — its
source file (`fedmsg/meta/default.py`) is not part of this repository
snapshot; `fedmsg/meta/__init__.py` only imports and appends it.  Per the
spec it implements `handle_msg` to match unconditionally (a non-null claim
for every message), every field accessor with minimal generic behavior
(deriving text from the raw message's `topic` field), and `conglomerate`
as a no-op pass-through. -/
def DefaultProcessor : Processor where
  handle_msg := fun _ => .ok (some (Value.s "DefaultProcessor"))
  title := fun msg =>
    match Msg.lookup msg "topic" with
    | some (Value.s t) => .ok (some t)
    | _ => .ok none
  subtitle := fun _ => .ok (some "")
  link := fun _ => .ok none
  icon := fun _ => .ok none
  secondary_icon := fun _ => .ok none
  usernames := fun _ => .ok []
  packages := fun _ => .ok []
  objects := fun _ => .ok []
  emails := fun _ => .ok []
  avatars := fun _ => .ok []
  conglomerate := fun msgs => .ok msgs

/-- One plugin advertised on the `fedmsg.meta` entry point: its declared
name, and the outcome of `processor.load()(_, **config)` — a constructed
processor, or the exception the constructor raised. -/
structure EntryPoint where
  name : String
  load : Except PyErr Processor

/-- The two `log.warn` call sites of `make_processors`, as events. -/
inductive LogWarning where
  | failedToLoad (name : String)
  | noPluginsFound
deriving Repr, DecidableEq

/-- What `make_processors` leaves behind: the populated `processors` list
and the warnings it logged. -/
structure InitResult where
  processors : List Processor
  warnings : List LogWarning

/-- The entry-point loop of `make_processors`: append each successfully
constructed processor; on a constructor exception, log a warning naming
the plugin and skip it. -/
def loadEntryPoints : List EntryPoint → List Processor × List LogWarning
  | [] => ([], [])
  | ep :: rest =>
    match ep.load with
    | .ok p => (p :: (loadEntryPoints rest).1, (loadEntryPoints rest).2)
    | .error _ =>
      ((loadEntryPoints rest).1,
       .failedToLoad ep.name :: (loadEntryPoints rest).2)

/-- `fedmsg.meta.make_processors`: load every advertised plugin
(constructor failures are logged and skipped), unconditionally append the
`DefaultProcessor` last, and warn that `fedmsg.meta.msg2*` is crippled
when the resulting list has exactly the three builtin entries. -/
def make_processors (eps : List EntryPoint) : InitResult :=
  let loaded := (loadEntryPoints eps).1
  let warns := (loadEntryPoints eps).2
  let procs := loaded ++ [DefaultProcessor]
  let warns' :=
    if procs.length == 3 then warns ++ [LogWarning.noPluginsFound] else warns
  { processors := procs, warnings := warns' }

/-! ### Helper lemmas -/

@[simp]
lemma except_pure_eq_ok {α : Type} (a : α) :
    (pure a : Except PyErr α) = Except.ok a := rfl

@[simp]
lemma except_ok_bind {α β : Type} (a : α) (f : α → Except PyErr β) :
    (Except.ok a >>= f) = f a := rfl

@[simp]
lemma except_error_bind {α β : Type} (e : PyErr) (f : α → Except PyErr β) :
    ((Except.error e : Except PyErr α) >>= f) = Except.error e := rfl

lemma with_processor_resolved {α : Type} (f : Msg → Processor → Except PyErr α)
    (reg : Registry) (msg : Msg) (p : Processor)
    (hres : msg2processor reg msg = .ok p) :
    with_processor f reg msg none = f msg p := by
  simp [with_processor, hres]

lemma with_processor_resolve_error {α : Type}
    (f : Msg → Processor → Except PyErr α) (reg : Registry) (msg : Msg)
    (e : PyErr) (hres : msg2processor reg msg = .error e) :
    with_processor f reg msg none = .error e := by
  simp [with_processor, hres]

lemma legacy_condition_ok {α : Type} (cls : α) (f : Msg → Except PyErr α)
    (msg : Msg) (legacy : Bool) (v : α) (hf : f msg = .ok v) :
    legacy_condition cls f msg legacy = .ok v := by
  simp [legacy_condition, hf]

lemma legacy_condition_keyError {α : Type} (cls : α) (f : Msg → Except PyErr α)
    (msg : Msg) (k : String) (hf : f msg = .error (.keyError k)) :
    legacy_condition cls f msg false = .error (.keyError k) ∧
    legacy_condition cls f msg true = .ok cls := by
  constructor <;> simp [legacy_condition, hf]

lemma legacy_condition_other_error {α : Type} (cls : α)
    (f : Msg → Except PyErr α) (msg : Msg) (legacy : Bool) (e : PyErr)
    (he : e.isKeyError = false) (hf : f msg = .error e) :
    legacy_condition cls f msg legacy = .error e := by
  cases e with
  | keyError k => simp [PyErr.isKeyError] at he
  | processorsNotInitialized m => simp [legacy_condition, hf]
  | other s => simp [legacy_condition, hf]

/-! ### Claims -/

/-- C4: for every configuration and every set of discovered plugins,
including runs where some plugin constructors fail, the registry built by
`make_processors` has the Default Processor as its last entry, appended
unconditionally after all external plugins. -/
theorem make_processors_default_last (eps : List EntryPoint) :
    (make_processors eps).processors.getLast? = some DefaultProcessor ∧
    (make_processors eps).processors =
      (loadEntryPoints eps).1 ++ [DefaultProcessor] := by
  constructor
  · simp [make_processors]
  · simp [make_processors]

/-- C5: before `make_processors` has been called the module-global registry
is the `ProcessorsNotInitialized` sentinel carrying the
initialize-first instruction; iterating it, taking its length, and every
public query invoked on it (`msg2processor`, `msg2repr`, every per-field
`msg2*`, and `conglomerate`) fails with exactly that error — even in
legacy mode, since the error is never caught internally. -/
theorem uninitialized_registry_raises (msg : Msg) (legacy : Bool)
    (humanize : Value → String) (msgs : List Msg) :
    Registry.iterate processorsInitial =
      .error (.processorsNotInitialized sentinelMessage) ∧
    Registry.length processorsInitial =
      .error (.processorsNotInitialized sentinelMessage) ∧
    msg2processor processorsInitial msg =
      .error (.processorsNotInitialized sentinelMessage) ∧
    msg2repr processorsInitial msg legacy none =
      .error (.processorsNotInitialized sentinelMessage) ∧
    msg2title processorsInitial msg legacy none =
      .error (.processorsNotInitialized sentinelMessage) ∧
    msg2subtitle processorsInitial msg legacy none =
      .error (.processorsNotInitialized sentinelMessage) ∧
    msg2link processorsInitial msg legacy none =
      .error (.processorsNotInitialized sentinelMessage) ∧
    msg2icon processorsInitial msg legacy none =
      .error (.processorsNotInitialized sentinelMessage) ∧
    msg2secondary_icon processorsInitial msg legacy none =
      .error (.processorsNotInitialized sentinelMessage) ∧
    msg2usernames processorsInitial msg legacy none =
      .error (.processorsNotInitialized sentinelMessage) ∧
    msg2packages processorsInitial msg legacy none =
      .error (.processorsNotInitialized sentinelMessage) ∧
    msg2objects processorsInitial msg legacy none =
      .error (.processorsNotInitialized sentinelMessage) ∧
    msg2emails processorsInitial msg legacy none =
      .error (.processorsNotInitialized sentinelMessage) ∧
    msg2avatars processorsInitial msg legacy none =
      .error (.processorsNotInitialized sentinelMessage) ∧
    conglomerate processorsInitial humanize msgs =
      .error (.processorsNotInitialized sentinelMessage) := by
  refine ⟨rfl, rfl, rfl, ?_, ?_, ?_, ?_, ?_, ?_, ?_, ?_, ?_, ?_, ?_, rfl⟩ <;>
    cases legacy <;> rfl

/-- Specification-side predicate for C2: `handle_msg` claimed the message,
i.e. its result is a value other than `None`.  Truthiness of the claim is
irrelevant: an empty falsy claim still counts. -/
def claimsMsg (p : Processor) (msg : Msg) : Bool :=
  match p.handle_msg msg with
  | .ok (some _) => true
  | _ => false

lemma findClaiming_eq_find (procs : List Processor) (msg : Msg)
    (hok : ∀ p ∈ procs, ∃ r, p.handle_msg msg = .ok r) :
    findClaiming procs msg = .ok (procs.find? (fun p => claimsMsg p msg)) := by
  induction procs with
  | nil => rfl
  | cons p ps ih =>
    obtain ⟨r, hr⟩ := hok p (List.mem_cons_self p ps)
    have hok' : ∀ q ∈ ps, ∃ r, q.handle_msg msg = .ok r :=
      fun q hq => hok q (List.mem_cons_of_mem p hq)
    cases r with
    | none => simp [findClaiming, hr, claimsMsg, List.find?, ih hok']
    | some v => simp [findClaiming, hr, claimsMsg, List.find?]

/-- A test plugin that voices no opinion on any message
(`handle_msg` returns `None`). -/
def silentProc : Processor :=
  { DefaultProcessor with handle_msg := fun _ => .ok none }

/-- A test plugin whose claim on every message is the falsy empty string —
not `None`, so it must still count as a claim. -/
def falsyClaimProc : Processor :=
  { DefaultProcessor with handle_msg := fun _ => .ok (some (Value.s "")) }

/-- C2: over a non-empty Ready registry whose `handle_msg` probes return
normally, `msg2processor` returns the first processor in registration
order whose `handle_msg` result is not `None` (`claimsMsg`, which counts
falsy non-`None` claims), and falls back to the last registry entry when
no processor claims the message. -/
theorem msg2processor_first_claiming (procs : List Processor) (msg : Msg)
    (hne : procs ≠ [])
    (hok : ∀ p ∈ procs, ∃ r, p.handle_msg msg = .ok r) :
    msg2processor (Registry.ready procs) msg =
      .ok ((procs.find? (fun p => claimsMsg p msg)).getD (procs.getLast hne)) := by
  have hfind := findClaiming_eq_find procs msg hok
  unfold msg2processor
  simp only [Registry.iterate, except_ok_bind, hfind]
  cases hf : procs.find? (fun p => claimsMsg p msg) with
  | some p => simp
  | none => simp [List.getLast?_eq_getLast procs hne]

/-- Witness for C2: with registry `[silent, falsy-claim, Default]` the
falsy-but-non-`None` claimant is returned; with registry `[silent]` the
loop exhausts and the last entry is returned. -/
theorem msg2processor_first_claiming_witness :
    msg2processor (Registry.ready [silentProc, falsyClaimProc, DefaultProcessor])
      [] = .ok falsyClaimProc ∧
    msg2processor (Registry.ready [silentProc]) [] = .ok silentProc := by
  constructor
  · have h := msg2processor_first_claiming
      [silentProc, falsyClaimProc, DefaultProcessor] [] (by simp)
      (by
        intro p hp
        fin_cases hp
        · exact ⟨none, rfl⟩
        · exact ⟨some (Value.s ""), rfl⟩
        · exact ⟨some (Value.s "DefaultProcessor"), rfl⟩)
    exact h
  · have h := msg2processor_first_claiming [silentProc] [] (by simp)
      (by
        intro p hp
        fin_cases hp
        exact ⟨none, rfl⟩)
    exact h

lemma pyOrEmpty_eq_getD (o : Option String) : pyOrEmpty o = o.getD "" := by
  cases o with
  | none => rfl
  | some s => by_cases h : s = "" <;> simp [pyOrEmpty, h]

/-- C9: when the resolved processor produces a title, a subtitle, and a
link outcome without error, `msg2repr` returns exactly the template
`"{title} -- {subtitle} {link}"`, with the link slot holding the empty
string when the processor's link result is `None`. -/
theorem msg2repr_template (reg : Registry) (msg : Msg) (p : Processor)
    (t st : String) (lk : Option String) (legacy : Bool)
    (hres : msg2processor reg msg = .ok p)
    (ht : p.title msg = .ok (some t))
    (hst : p.subtitle msg = .ok (some st))
    (hlk : p.link msg = .ok lk) :
    msg2repr reg msg legacy none =
      .ok (t ++ " -- " ++ st ++ " " ++ lk.getD "") := by
  have htitle : msg2title reg msg false none = .ok (some t) := by
    apply legacy_condition_ok
    rw [with_processor_resolved _ reg msg p hres, ht]
  have hbody : msg2repr_body reg msg p =
      .ok (t ++ " -- " ++ st ++ " " ++ lk.getD "") := by
    unfold msg2repr_body
    simp [htitle, hst, hlk, formatOptStr, pyOrEmpty_eq_getD]
  apply legacy_condition_ok
  rw [with_processor_resolved _ reg msg p hres]
  exact hbody

/-- Witness for C9: a concrete registry and message for which the template
is rendered, once with a present link and once with a `None` link. -/
theorem msg2repr_template_witness :
    msg2repr (Registry.ready [DefaultProcessor]) [("topic", Value.s "a.topic")]
      false none = .ok ("a.topic" ++ " -- " ++ "" ++ " " ++ "") := by
  have h := msg2repr_template (Registry.ready [DefaultProcessor])
    [("topic", Value.s "a.topic")] DefaultProcessor "a.topic" "" none false
    rfl rfl rfl rfl
  exact h

/-- A test plugin that claims every message but whose every field accessor
raises `KeyError("missing")`. -/
def keyErrProc : Processor :=
  { DefaultProcessor with
      title := fun _ => .error (.keyError "missing")
      subtitle := fun _ => .error (.keyError "missing")
      link := fun _ => .error (.keyError "missing")
      icon := fun _ => .error (.keyError "missing")
      secondary_icon := fun _ => .error (.keyError "missing")
      usernames := fun _ => .error (.keyError "missing")
      packages := fun _ => .error (.keyError "missing")
      objects := fun _ => .error (.keyError "missing")
      emails := fun _ => .error (.keyError "missing")
      avatars := fun _ => .error (.keyError "missing") }

lemma facade_keyError_part {α : Type} (cls : α)
    (acc : Msg → Processor → Except PyErr α) (reg : Registry) (msg : Msg)
    (p : Processor) (k : String) (hres : msg2processor reg msg = .ok p)
    (h : acc msg p = .error (.keyError k)) :
    legacy_condition cls (fun m => with_processor acc reg m none) msg false =
      .error (.keyError k) ∧
    legacy_condition cls (fun m => with_processor acc reg m none) msg true =
      .ok cls := by
  apply legacy_condition_keyError
  show with_processor acc reg msg none = _
  rw [with_processor_resolved acc reg msg p hres]
  exact h

/-- C3: when the resolved processor's field accessor raises `KeyError`,
every public query function propagates that error unchanged without legacy
mode and returns the type-correct empty value with `legacy=True`: the
empty string for the text-valued queries (for the string-or-`None` valued
queries this is the Python value `""`, i.e. `some ""`), the empty set for
the set-valued queries, and the empty mapping for the mapping-valued
queries. -/
theorem legacy_fallback_contract (reg : Registry) (msg : Msg) (p : Processor)
    (k : String) (hres : msg2processor reg msg = .ok p) :
    (p.title msg = .error (.keyError k) →
      msg2title reg msg false none = .error (.keyError k) ∧
      msg2title reg msg true none = .ok (some "")) ∧
    (p.subtitle msg = .error (.keyError k) →
      msg2subtitle reg msg false none = .error (.keyError k) ∧
      msg2subtitle reg msg true none = .ok (some "")) ∧
    (p.link msg = .error (.keyError k) →
      msg2link reg msg false none = .error (.keyError k) ∧
      msg2link reg msg true none = .ok (some "")) ∧
    (p.icon msg = .error (.keyError k) →
      msg2icon reg msg false none = .error (.keyError k) ∧
      msg2icon reg msg true none = .ok (some "")) ∧
    (p.secondary_icon msg = .error (.keyError k) →
      msg2secondary_icon reg msg false none = .error (.keyError k) ∧
      msg2secondary_icon reg msg true none = .ok (some "")) ∧
    (p.usernames msg = .error (.keyError k) →
      msg2usernames reg msg false none = .error (.keyError k) ∧
      msg2usernames reg msg true none = .ok []) ∧
    (p.packages msg = .error (.keyError k) →
      msg2packages reg msg false none = .error (.keyError k) ∧
      msg2packages reg msg true none = .ok []) ∧
    (p.objects msg = .error (.keyError k) →
      msg2objects reg msg false none = .error (.keyError k) ∧
      msg2objects reg msg true none = .ok []) ∧
    (p.emails msg = .error (.keyError k) →
      msg2emails reg msg false none = .error (.keyError k) ∧
      msg2emails reg msg true none = .ok []) ∧
    (p.avatars msg = .error (.keyError k) →
      msg2avatars reg msg false none = .error (.keyError k) ∧
      msg2avatars reg msg true none = .ok []) ∧
    (p.title msg = .error (.keyError k) →
      msg2repr reg msg false none = .error (.keyError k) ∧
      msg2repr reg msg true none = .ok "") := by
  refine ⟨?_, ?_, ?_, ?_, ?_, ?_, ?_, ?_, ?_, ?_, ?_⟩
  · intro h
    exact facade_keyError_part (some "") (fun m' q => q.title m') reg msg p k hres h
  · intro h
    exact facade_keyError_part (some "") (fun m' q => q.subtitle m') reg msg p k hres h
  · intro h
    exact facade_keyError_part (some "") (fun m' q => q.link m') reg msg p k hres h
  · intro h
    exact facade_keyError_part (some "") (fun m' q => q.icon m') reg msg p k hres h
  · intro h
    exact facade_keyError_part (some "") (fun m' q => q.secondary_icon m') reg msg p k hres h
  · intro h
    exact facade_keyError_part [] (fun m' q => q.usernames m') reg msg p k hres h
  · intro h
    exact facade_keyError_part [] (fun m' q => q.packages m') reg msg p k hres h
  · intro h
    exact facade_keyError_part [] (fun m' q => q.objects m') reg msg p k hres h
  · intro h
    exact facade_keyError_part [] (fun m' q => q.emails m') reg msg p k hres h
  · intro h
    exact facade_keyError_part [] (fun m' q => q.avatars m') reg msg p k hres h
  · intro h
    have htitle :=
      (facade_keyError_part (some "") (fun m' q => q.title m') reg msg p k hres h).1
    have hbody : msg2repr_body reg msg p = .error (.keyError k) := by
      unfold msg2repr_body
      have htitle' : msg2title reg msg false none = .error (.keyError k) := htitle
      simp [htitle']
    exact facade_keyError_part "" (fun m' q => msg2repr_body reg m' q) reg msg p k hres hbody

/-- Witness for C3: against a plugin whose accessors all raise
`KeyError("missing")`, the non-legacy queries raise and the legacy ones
return `""`, the empty set, and the empty dict respectively. -/
theorem legacy_fallback_contract_witness :
    msg2title (Registry.ready [keyErrProc]) [] false none =
      .error (.keyError "missing") ∧
    msg2title (Registry.ready [keyErrProc]) [] true none = .ok (some "") ∧
    msg2usernames (Registry.ready [keyErrProc]) [] true none = .ok [] ∧
    msg2emails (Registry.ready [keyErrProc]) [] true none = .ok [] ∧
    msg2repr (Registry.ready [keyErrProc]) [] true none = .ok "" := by
  have h := legacy_fallback_contract (Registry.ready [keyErrProc]) []
    keyErrProc "missing" rfl
  exact ⟨(h.1 rfl).1, (h.1 rfl).2, (h.2.2.2.2.2.1 rfl).2,
    (h.2.2.2.2.2.2.2.2.1 rfl).2, (h.2.2.2.2.2.2.2.2.2.2 rfl).2⟩

lemma facade_other_error_part {α : Type} (cls : α)
    (acc : Msg → Processor → Except PyErr α) (reg : Registry) (msg : Msg)
    (p : Processor) (e : PyErr) (legacy : Bool) (he : e.isKeyError = false)
    (hres : msg2processor reg msg = .ok p) (h : acc msg p = .error e) :
    legacy_condition cls (fun m => with_processor acc reg m none) msg legacy =
      .error e := by
  apply legacy_condition_other_error _ _ _ _ _ he
  show with_processor acc reg msg none = _
  rw [with_processor_resolved acc reg msg p hres]
  exact h

lemma facade_dispatch_error_part {α : Type} (cls : α)
    (acc : Msg → Processor → Except PyErr α) (reg : Registry) (msg : Msg)
    (e : PyErr) (legacy : Bool) (he : e.isKeyError = false)
    (hres : msg2processor reg msg = .error e) :
    legacy_condition cls (fun m => with_processor acc reg m none) msg legacy =
      .error e := by
  apply legacy_condition_other_error _ _ _ _ _ he
  show with_processor acc reg msg none = _
  rw [with_processor_resolve_error acc reg msg e hres]

lemma facade_dispatch_keyError_part {α : Type} (cls : α)
    (acc : Msg → Processor → Except PyErr α) (reg : Registry) (msg : Msg)
    (k : String) (hres : msg2processor reg msg = .error (.keyError k)) :
    legacy_condition cls (fun m => with_processor acc reg m none) msg true =
      .ok cls := by
  refine (legacy_condition_keyError cls _ msg k ?_).2
  show with_processor acc reg msg none = _
  rw [with_processor_resolve_error acc reg msg _ hres]

/-- C10: legacy mode intercepts exactly `KeyError`.  A non-`KeyError`
exception raised by the resolved processor's field method, or by a
`handle_msg` probe during automatic dispatch, propagates unchanged even
with `legacy=True`; and because `legacy_condition` encloses
`with_processor`, a `KeyError` raised during dispatch itself is also
converted to the type-correct empty value. -/
theorem legacy_catches_only_keyError (reg : Registry) (msg : Msg)
    (e : PyErr) (k : String) (he : e.isKeyError = false) :
    (∀ p, msg2processor reg msg = .ok p → p.title msg = .error e →
      msg2title reg msg true none = .error e) ∧
    (∀ p, msg2processor reg msg = .ok p → p.usernames msg = .error e →
      msg2usernames reg msg true none = .error e) ∧
    (msg2processor reg msg = .error e →
      msg2title reg msg true none = .error e) ∧
    (msg2processor reg msg = .error (.keyError k) →
      msg2title reg msg true none = .ok (some "") ∧
      msg2usernames reg msg true none = .ok [] ∧
      msg2emails reg msg true none = .ok []) := by
  refine ⟨?_, ?_, ?_, ?_⟩
  · intro p hres h
    exact facade_other_error_part (some "") (fun m' q => q.title m')
      reg msg p e true he hres h
  · intro p hres h
    exact facade_other_error_part [] (fun m' q => q.usernames m')
      reg msg p e true he hres h
  · intro hres
    exact facade_dispatch_error_part (some "") (fun m' q => q.title m')
      reg msg e true he hres
  · intro hres
    exact ⟨facade_dispatch_keyError_part (some "") (fun m' q => q.title m')
        reg msg k hres,
      facade_dispatch_keyError_part [] (fun m' q => q.usernames m')
        reg msg k hres,
      facade_dispatch_keyError_part [] (fun m' q => q.emails m')
        reg msg k hres⟩

/-- A test plugin that claims every message but raises a non-`KeyError`
exception from its field accessors. -/
def otherErrProc : Processor :=
  { DefaultProcessor with
      title := fun _ => .error (.other "ValueError")
      usernames := fun _ => .error (.other "ValueError") }

/-- A test plugin whose `handle_msg` probe raises a non-`KeyError`
exception. -/
def dispatchOtherProc : Processor :=
  { DefaultProcessor with handle_msg := fun _ => .error (.other "boom") }

/-- A test plugin whose `handle_msg` probe raises `KeyError("topic")`. -/
def dispatchKeyErrProc : Processor :=
  { DefaultProcessor with handle_msg := fun _ => .error (.keyError "topic") }

/-- Witness for C10: with `legacy=True`, a `ValueError`-style exception
from an accessor or from dispatch propagates unchanged, while a dispatch
`KeyError` is converted to the empty value. -/
theorem legacy_catches_only_keyError_witness :
    msg2title (Registry.ready [otherErrProc]) [] true none =
      .error (.other "ValueError") ∧
    msg2usernames (Registry.ready [otherErrProc]) [] true none =
      .error (.other "ValueError") ∧
    msg2title (Registry.ready [dispatchOtherProc]) [] true none =
      .error (.other "boom") ∧
    msg2title (Registry.ready [dispatchKeyErrProc]) [] true none =
      .ok (some "") := by
  have h1 := legacy_catches_only_keyError (Registry.ready [otherErrProc]) []
    (.other "ValueError") "topic" rfl
  have h2 := legacy_catches_only_keyError (Registry.ready [dispatchOtherProc])
    [] (.other "boom") "topic" rfl
  have h3 := legacy_catches_only_keyError (Registry.ready [dispatchKeyErrProc])
    [] (.other "unused") "topic" rfl
  exact ⟨h1.1 otherErrProc rfl rfl, h1.2.1 otherErrProc rfl rfl,
    h2.2.2.1 rfl, (h3.2.2.2 rfl).1⟩

lemma loadEntryPoints_append (a b : List EntryPoint) :
    loadEntryPoints (a ++ b) =
      ((loadEntryPoints a).1 ++ (loadEntryPoints b).1,
       (loadEntryPoints a).2 ++ (loadEntryPoints b).2) := by
  induction a with
  | nil => simp [loadEntryPoints]
  | cons ep rest ih =>
    cases hl : ep.load with
    | ok p => simp [loadEntryPoints, hl, ih]
    | error e => simp [loadEntryPoints, hl, ih]

lemma loadEntryPoints_all_ok (a : List EntryPoint)
    (h : ∀ ep ∈ a, ∃ p, ep.load = .ok p) :
    (loadEntryPoints a).1.length = a.length ∧ (loadEntryPoints a).2 = [] := by
  induction a with
  | nil => simp [loadEntryPoints]
  | cons ep rest ih =>
    obtain ⟨p, hp⟩ := h ep (List.mem_cons_self ep rest)
    obtain ⟨h1, h2⟩ := ih (fun q hq => h q (List.mem_cons_of_mem ep hq))
    simp [loadEntryPoints, hp, h1, h2]

lemma loadEntryPoints_nil_iff (a : List EntryPoint) :
    (loadEntryPoints a).1 = [] ↔ ∀ ep ∈ a, ∀ p, ep.load ≠ .ok p := by
  induction a with
  | nil => simp [loadEntryPoints]
  | cons ep rest ih =>
    cases hl : ep.load with
    | ok p =>
      simp only [loadEntryPoints, hl]
      constructor
      · intro h; exact absurd h (List.cons_ne_nil _ _)
      · intro h
        exact absurd hl (h ep (List.mem_cons_self ep rest) p)
    | error e =>
      simp only [loadEntryPoints, hl]
      rw [ih]
      constructor
      · intro h q hq
        rcases List.mem_cons.mp hq with rfl | hq'
        · intro r hr; rw [hl] at hr; exact Except.noConfusion hr
        · exact h q hq'
      · intro h q hq
        exact h q (List.mem_cons_of_mem ep hq)

lemma loadEntryPoints_warnings_failed (a : List EntryPoint) :
    ∀ w ∈ (loadEntryPoints a).2, ∃ n, w = LogWarning.failedToLoad n := by
  induction a with
  | nil => simp [loadEntryPoints]
  | cons ep rest ih =>
    cases hl : ep.load with
    | ok p =>
      intro w hw
      simp only [loadEntryPoints, hl] at hw
      exact ih w hw
    | error e =>
      intro w hw
      simp only [loadEntryPoints, hl, List.mem_cons] at hw
      rcases hw with rfl | hw
      · exact ⟨ep.name, rfl⟩
      · exact ih w hw

/-- C6: under the deployment the source's builtin comment describes —
exactly two builtin entry points (Logger and Announce) that always load,
ahead of the external ones — `make_processors` logs the
crippled-functionality warning exactly when no external plugin loads
successfully, and initialization always completes with a non-empty
registry. -/
theorem make_processors_crippled_warning (builtins externals : List EntryPoint)
    (hb2 : builtins.length = 2)
    (hbok : ∀ ep ∈ builtins, ∃ p, ep.load = .ok p) :
    (LogWarning.noPluginsFound ∈
        (make_processors (builtins ++ externals)).warnings ↔
      ∀ ep ∈ externals, ∀ p, ep.load ≠ .ok p) ∧
    (make_processors (builtins ++ externals)).processors ≠ [] := by
  obtain ⟨hlenb, hwb⟩ := loadEntryPoints_all_ok builtins hbok
  have lapp := loadEntryPoints_append builtins externals
  constructor
  · show LogWarning.noPluginsFound ∈
      (if ((loadEntryPoints (builtins ++ externals)).1 ++
            [DefaultProcessor]).length == 3
       then (loadEntryPoints (builtins ++ externals)).2 ++
         [LogWarning.noPluginsFound]
       else (loadEntryPoints (builtins ++ externals)).2) ↔ _
    rw [lapp]
    simp only [List.length_append, hlenb, hb2, hwb, List.nil_append,
      List.length_singleton]
    rw [← loadEntryPoints_nil_iff]
    by_cases hnil : (loadEntryPoints externals).1 = []
    · simp [hnil]
    · have hne : (loadEntryPoints externals).1.length ≠ 0 := by
        simpa [List.length_eq_zero] using hnil
      have hcond : (2 + (loadEntryPoints externals).1.length + 1 == 3) = false := by
        simp only [beq_eq_false_iff_ne]
        omega
      rw [hcond, if_neg (by simp)]
      constructor
      · intro hmem
        obtain ⟨n, hn⟩ := loadEntryPoints_warnings_failed externals _ hmem
        exact LogWarning.noConfusion hn
      · intro h
        exact absurd h hnil
  · show (loadEntryPoints (builtins ++ externals)).1 ++ [DefaultProcessor] ≠ []
    simp

/-- Witness for C6: two always-loading builtins plus one failing external
plugin yield the crippled warning; adding one loading external suppresses
it. -/
theorem make_processors_crippled_warning_witness :
    (LogWarning.noPluginsFound ∈
      (make_processors
        [⟨"logger", .ok DefaultProcessor⟩, ⟨"announce", .ok DefaultProcessor⟩,
         ⟨"ext", .error (.other "ImportError")⟩]).warnings) ∧
    ¬ (LogWarning.noPluginsFound ∈
      (make_processors
        [⟨"logger", .ok DefaultProcessor⟩, ⟨"announce", .ok DefaultProcessor⟩,
         ⟨"ext", .ok DefaultProcessor⟩]).warnings) := by
  constructor
  · have h := make_processors_crippled_warning
      [⟨"logger", .ok DefaultProcessor⟩, ⟨"announce", .ok DefaultProcessor⟩]
      [⟨"ext", .error (.other "ImportError")⟩] rfl
      (by
        intro ep hep
        fin_cases hep
        · exact ⟨DefaultProcessor, rfl⟩
        · exact ⟨DefaultProcessor, rfl⟩)
    refine h.1.mpr ?_
    intro ep hep p hp
    fin_cases hep
    exact Except.noConfusion hp
  · have h := make_processors_crippled_warning
      [⟨"logger", .ok DefaultProcessor⟩, ⟨"announce", .ok DefaultProcessor⟩]
      [⟨"ext", .ok DefaultProcessor⟩] rfl
      (by
        intro ep hep
        fin_cases hep
        · exact ⟨DefaultProcessor, rfl⟩
        · exact ⟨DefaultProcessor, rfl⟩)
    intro hmem
    have := h.1.mp hmem ⟨"ext", .ok DefaultProcessor⟩ (by simp) DefaultProcessor
    exact this rfl

lemma runConglomerates_fixed (procs : List Processor) (msgs : List Msg)
    (hcong : ∀ p ∈ procs, p.conglomerate msgs = .ok msgs) :
    runConglomerates procs msgs = .ok msgs := by
  induction procs with
  | nil => rfl
  | cons p ps ih =>
    have hp := hcong p (List.mem_cons_self p ps)
    have hrest := ih (fun q hq => hcong q (List.mem_cons_of_mem p hq))
    simp [runConglomerates, hp, hrest]

lemma wrapUngrouped_all_grouped (reg : Registry) (humanize : Value → String)
    (msgs : List Msg) (hall : ∀ m ∈ msgs, Msg.hasKey m "msg_ids" = true) :
    wrapUngrouped reg humanize msgs = .ok msgs := by
  induction msgs with
  | nil => rfl
  | cons m rest ih =>
    have hm := hall m (List.mem_cons_self m rest)
    have hrest := ih (fun q hq => hall q (List.mem_cons_of_mem m hq))
    simp [wrapUngrouped, hm, hrest]

/-- C7: on a list whose every element already bears a `msg_ids` key, and
provided no registered processor's conglomerate step touches a batch made
only of `msg_ids`-bearing records, `conglomerate` returns the list
unchanged — nothing is re-wrapped or modified. -/
theorem conglomerate_idempotent (procs : List Processor)
    (humanize : Value → String) (msgs : List Msg)
    (hall : ∀ m ∈ msgs, Msg.hasKey m "msg_ids" = true)
    (hcong : ∀ p ∈ procs, ∀ ms, (∀ m ∈ ms, Msg.hasKey m "msg_ids" = true) →
      p.conglomerate ms = .ok ms) :
    conglomerate (Registry.ready procs) humanize msgs = .ok msgs := by
  have hrun : runConglomerates procs msgs = .ok msgs :=
    runConglomerates_fixed procs msgs (fun p hp => hcong p hp msgs hall)
  unfold conglomerate
  simp [Registry.iterate, hrun, wrapUngrouped_all_grouped _ humanize msgs hall]

/-- Witness for C7: a one-record already-conglomerated list passes through
the Default Processor's pass-through step and the wrapping loop
untouched. -/
theorem conglomerate_idempotent_witness :
    conglomerate (Registry.ready [DefaultProcessor]) (fun _ => "now")
      [[("msg_ids", Value.vlist [Value.s "a"])]] =
      .ok [[("msg_ids", Value.vlist [Value.s "a"])]] := by
  have h := conglomerate_idempotent [DefaultProcessor] (fun _ => "now")
    [[("msg_ids", Value.vlist [Value.s "a"])]]
    (by
      intro m hm
      fin_cases hm
      rfl)
    (by
      intro p hp ms hms
      fin_cases hp
      rfl)
  exact h

lemma runConglomerates_perm (procs : List Processor)
    (hpres : ∀ p ∈ procs, ∀ ms ms', p.conglomerate ms = .ok ms' →
      ((ms'.flatMap entryIds).Perm (ms.flatMap entryIds))) :
    ∀ ms out, runConglomerates procs ms = .ok out →
      (out.flatMap entryIds).Perm (ms.flatMap entryIds) := by
  induction procs with
  | nil =>
    intro ms out h
    simp only [runConglomerates, Except.ok.injEq] at h
    subst h
    exact List.Perm.refl _
  | cons p ps ih =>
    intro ms out h
    unfold runConglomerates at h
    cases hc : p.conglomerate ms with
    | error e =>
      rw [hc] at h
      simp at h
    | ok mid =>
      rw [hc] at h
      simp only [except_ok_bind] at h
      exact (ih (fun q hq => hpres q (List.mem_cons_of_mem p hq)) mid out h).trans
        (hpres p (List.mem_cons_self p ps) ms mid hc)

lemma getItem_ok (m : Msg) (k : String) (v : Value)
    (h : getItem m k = .ok v) : Msg.lookup m k = some v := by
  unfold getItem at h
  cases hl : Msg.lookup m k with
  | none => rw [hl] at h; cases h
  | some w => rw [hl] at h; cases h; rfl

lemma wrapSingleton_ids (reg : Registry) (humanize : Value → String)
    (m out : Msg) (hok : wrapSingleton reg humanize m = .ok out) :
    ∃ idv, Msg.lookup m "msg_id" = some idv ∧ entryIds out = [idv] := by
  unfold wrapSingleton at hok
  cases h1 : msg2subtitle reg m false none with
  | error e => rw [h1] at hok; simp at hok
  | ok st =>
  rw [h1] at hok; simp only [except_ok_bind] at hok
  cases h2 : msg2link reg m false none with
  | error e => rw [h2] at hok; simp at hok
  | ok lk =>
  rw [h2] at hok; simp only [except_ok_bind] at hok
  cases h3 : msg2icon reg m false none with
  | error e => rw [h3] at hok; simp at hok
  | ok ic =>
  rw [h3] at hok; simp only [except_ok_bind] at hok
  cases h4 : msg2secondary_icon reg m false none with
  | error e => rw [h4] at hok; simp at hok
  | ok si =>
  rw [h4] at hok; simp only [except_ok_bind] at hok
  cases h5 : getItem m "timestamp" with
  | error e => rw [h5] at hok; simp at hok
  | ok ts =>
  rw [h5] at hok; simp only [except_ok_bind] at hok
  cases h6 : msg2usernames reg m false none with
  | error e => rw [h6] at hok; simp at hok
  | ok us =>
  rw [h6] at hok; simp only [except_ok_bind] at hok
  cases h7 : msg2packages reg m false none with
  | error e => rw [h7] at hok; simp at hok
  | ok pk =>
  rw [h7] at hok; simp only [except_ok_bind] at hok
  cases h8 : getItem m "msg_id" with
  | error e => rw [h8] at hok; simp at hok
  | ok idv =>
  rw [h8] at hok
  simp only [except_ok_bind, except_pure_eq_ok, Except.ok.injEq] at hok
  subst hok
  exact ⟨idv, getItem_ok m "msg_id" idv h8, rfl⟩

lemma wrapUngrouped_entryIds (reg : Registry) (humanize : Value → String) :
    ∀ ms out, wrapUngrouped reg humanize ms = .ok out →
      out.flatMap entryIds = ms.flatMap entryIds := by
  intro ms
  induction ms with
  | nil =>
    intro out h
    simp only [wrapUngrouped, Except.ok.injEq] at h
    subst h
    rfl
  | cons m rest ih =>
    intro out h
    unfold wrapUngrouped at h
    by_cases hkey : Msg.hasKey m "msg_ids"
    · rw [if_pos hkey] at h
      simp only [except_pure_eq_ok, except_ok_bind] at h
      cases hrest : wrapUngrouped reg humanize rest with
      | error e => rw [hrest] at h; simp at h
      | ok rest' =>
        rw [hrest] at h
        simp only [except_ok_bind, except_pure_eq_ok, Except.ok.injEq] at h
        subst h
        simp [List.flatMap_cons, ih rest' hrest]
    · rw [if_neg hkey] at h
      cases hw : wrapSingleton reg humanize m with
      | error e => rw [hw] at h; simp at h
      | ok m' =>
        rw [hw] at h
        simp only [except_ok_bind] at h
        cases hrest : wrapUngrouped reg humanize rest with
        | error e => rw [hrest] at h; simp at h
        | ok rest' =>
          rw [hrest] at h
          simp only [except_ok_bind, except_pure_eq_ok, Except.ok.injEq] at h
          subst h
          obtain ⟨idv, hid, hids⟩ := wrapSingleton_ids reg humanize m m' hw
          have hm_none : Msg.lookup m "msg_ids" = none := by
            unfold Msg.hasKey at hkey
            cases hl : Msg.lookup m "msg_ids" with
            | none => rfl
            | some w => rw [hl] at hkey; simp at hkey
          have hm_ids : entryIds m = [idv] := by
            unfold entryIds
            rw [hm_none, hid]
          simp [List.flatMap_cons, hids, hm_ids, ih rest' hrest]

lemma flatMap_entryIds_raw (msgs : List Msg)
    (hraw : ∀ m ∈ msgs, Msg.lookup m "msg_ids" = none) :
    msgs.flatMap entryIds =
      msgs.filterMap (fun m => Msg.lookup m "msg_id") := by
  induction msgs with
  | nil => rfl
  | cons m rest ih =>
    have hm := hraw m (List.mem_cons_self m rest)
    have hrest := ih (fun q hq => hraw q (List.mem_cons_of_mem m hq))
    cases hl : Msg.lookup m "msg_id" <;>
      simp [List.flatMap_cons, List.filterMap_cons, entryIds, hm, hl, hrest]

lemma flatMap_entryIds_length (msgs : List Msg)
    (hraw : ∀ m ∈ msgs, Msg.lookup m "msg_ids" = none)
    (hid : ∀ m ∈ msgs, (Msg.lookup m "msg_id").isSome = true) :
    (msgs.flatMap entryIds).length = msgs.length := by
  induction msgs with
  | nil => rfl
  | cons m rest ih =>
    have hm := hraw m (List.mem_cons_self m rest)
    have hi := hid m (List.mem_cons_self m rest)
    cases hl : Msg.lookup m "msg_id" with
    | none => rw [hl] at hi; simp at hi
    | some v =>
      have hrest := ih (fun q hq => hraw q (List.mem_cons_of_mem m hq))
        (fun q hq => hid q (List.mem_cons_of_mem m hq))
      simp [List.flatMap_cons, entryIds, hm, hl, hrest]

/-- C1: provided every registered processor's conglomerate step preserves
`msg_ids` coverage (up to reordering), running `conglomerate` over a list
of raw messages that each bear a `msg_id` yields records whose `msg_ids`
are a permutation of the input ids — no message dropped, none duplicated
across records (distinct input ids stay distinct in the output), the
input coverage being exactly the input messages' `msg_id`s. -/
theorem conglomerate_partition (procs : List Processor)
    (humanize : Value → String) (msgs out : List Msg)
    (hpres : ∀ p ∈ procs, ∀ ms ms', p.conglomerate ms = .ok ms' →
      (ms'.flatMap entryIds).Perm (ms.flatMap entryIds))
    (hraw : ∀ m ∈ msgs, Msg.lookup m "msg_ids" = none)
    (hid : ∀ m ∈ msgs, (Msg.lookup m "msg_id").isSome = true)
    (hok : conglomerate (Registry.ready procs) humanize msgs = .ok out) :
    (out.flatMap entryIds).Perm (msgs.flatMap entryIds) ∧
    ((msgs.flatMap entryIds).Nodup → (out.flatMap entryIds).Nodup) ∧
    msgs.flatMap entryIds =
      msgs.filterMap (fun m => Msg.lookup m "msg_id") ∧
    (msgs.flatMap entryIds).length = msgs.length := by
  unfold conglomerate at hok
  simp only [Registry.iterate, except_ok_bind] at hok
  cases hrun : runConglomerates procs msgs with
  | error e => rw [hrun] at hok; simp at hok
  | ok mid =>
    rw [hrun] at hok
    simp only [except_ok_bind] at hok
    have h1 := wrapUngrouped_entryIds (Registry.ready procs) humanize mid out hok
    have h2 := runConglomerates_perm procs hpres msgs mid hrun
    have hperm : (out.flatMap entryIds).Perm (msgs.flatMap entryIds) := h1 ▸ h2
    exact ⟨hperm, fun hnd => hperm.nodup_iff.mpr hnd,
      flatMap_entryIds_raw msgs hraw, flatMap_entryIds_length msgs hraw hid⟩

/-- A concrete raw message used by the conglomerate witnesses. -/
def wMsgA : Msg := [("msg_id", Value.s "id1"), ("timestamp", Value.i 100)]

/-- A second concrete raw message used by the conglomerate witnesses. -/
def wMsgB : Msg := [("msg_id", Value.s "id2"), ("timestamp", Value.i 200)]

/-- The singleton record `conglomerate` synthesizes for `wMsgA` under a
Default-Processor-only registry and the constant humanizer `"now"`. -/
def wRecordA : Msg :=
  [("subtitle", Value.s ""), ("link", Value.null), ("icon", Value.null),
   ("secondary_icon", Value.null), ("start_time", Value.i 100),
   ("end_time", Value.i 100), ("timestamp", Value.i 100),
   ("human_time", Value.s "now"), ("usernames", Value.vset []),
   ("packages", Value.vset []), ("msg_ids", Value.vlist [Value.s "id1"])]

/-- The singleton record `conglomerate` synthesizes for `wMsgB`. -/
def wRecordB : Msg :=
  [("subtitle", Value.s ""), ("link", Value.null), ("icon", Value.null),
   ("secondary_icon", Value.null), ("start_time", Value.i 200),
   ("end_time", Value.i 200), ("timestamp", Value.i 200),
   ("human_time", Value.s "now"), ("usernames", Value.vset []),
   ("packages", Value.vset []), ("msg_ids", Value.vlist [Value.s "id2"])]

/-- Witness for C1: over the Default-Processor-only registry, the two-raw-
message batch keeps exactly its two ids, still distinct, one per input. -/
theorem conglomerate_partition_witness :
    ([wRecordA, wRecordB].flatMap entryIds).Perm
      ([wMsgA, wMsgB].flatMap entryIds) ∧
    ([wRecordA, wRecordB].flatMap entryIds).Nodup ∧
    ([wMsgA, wMsgB].flatMap entryIds).length = 2 := by
  have h := conglomerate_partition [DefaultProcessor] (fun _ => "now")
    [wMsgA, wMsgB] [wRecordA, wRecordB]
    (by
      intro p hp ms ms' hc
      fin_cases hp
      simp only [DefaultProcessor] at hc
      injection hc with hc
      subst hc
      exact List.Perm.refl _)
    (by
      intro m hm
      fin_cases hm <;> rfl)
    (by
      intro m hm
      fin_cases hm <;> rfl)
    rfl
  refine ⟨h.1, h.2.1 ?_, h.2.2.2⟩
  show ([Value.s "id1", Value.s "id2"] : List Value).Nodup
  simp

lemma wrapUngrouped_getElem (reg : Registry) (humanize : Value → String) :
    ∀ ms out, wrapUngrouped reg humanize ms = .ok out →
    ∀ (i : Nat) (m : Msg), ms[i]? = some m → Msg.hasKey m "msg_ids" = false →
      ∃ m', wrapSingleton reg humanize m = .ok m' ∧ out[i]? = some m' := by
  intro ms
  induction ms with
  | nil =>
    intro out h i m hm
    simp at hm
  | cons hd rest ih =>
    intro out h i m hm hkey
    unfold wrapUngrouped at h
    by_cases hkeyh : Msg.hasKey hd "msg_ids"
    · rw [if_pos hkeyh] at h
      simp only [except_pure_eq_ok, except_ok_bind] at h
      cases hrest : wrapUngrouped reg humanize rest with
      | error e => rw [hrest] at h; simp at h
      | ok rest' =>
        rw [hrest] at h
        simp only [except_ok_bind, except_pure_eq_ok, Except.ok.injEq] at h
        subst h
        cases i with
        | zero =>
          simp only [List.getElem?_cons_zero, Option.some.injEq] at hm
          subst hm
          simp [hkey] at hkeyh
        | succ j =>
          simp only [List.getElem?_cons_succ] at hm
          obtain ⟨m'', hw, hout⟩ := ih rest' hrest j m hm hkey
          exact ⟨m'', hw, by simpa using hout⟩
    · rw [if_neg hkeyh] at h
      cases hw : wrapSingleton reg humanize hd with
      | error e => rw [hw] at h; simp at h
      | ok m' =>
        rw [hw] at h
        simp only [except_ok_bind] at h
        cases hrest : wrapUngrouped reg humanize rest with
        | error e => rw [hrest] at h; simp at h
        | ok rest' =>
          rw [hrest] at h
          simp only [except_ok_bind, except_pure_eq_ok, Except.ok.injEq] at h
          subst h
          cases i with
          | zero =>
            simp only [List.getElem?_cons_zero, Option.some.injEq] at hm
            subst hm
            exact ⟨m', hw, by simp⟩
          | succ j =>
            simp only [List.getElem?_cons_succ] at hm
            obtain ⟨m'', hw2, hout⟩ := ih rest' hrest j m hm hkey
            exact ⟨m'', hw2, by simpa using hout⟩

/-- C8: any entry of the processor-transformed list that still lacks a
`msg_ids` key is replaced, in place, by a synthesized record whose
`start_time`, `end_time` and `timestamp` all equal that message's
`timestamp`, whose `human_time` is the humanized rendering of that
timestamp, whose `msg_ids` is the one-element list holding the message's
`msg_id`, and whose `subtitle`, `link`, `icon`, `secondary_icon`,
`usernames` and `packages` come from the corresponding query functions
applied to that message. -/
theorem conglomerate_singleton_record (procs : List Processor)
    (humanize : Value → String) (msgs mid out : List Msg) (i : Nat) (m : Msg)
    (st lk ic si : Option String) (ts idv : Value) (us pk : List String)
    (hrun : runConglomerates procs msgs = .ok mid)
    (hok : conglomerate (Registry.ready procs) humanize msgs = .ok out)
    (hm : mid[i]? = some m)
    (hkey : Msg.hasKey m "msg_ids" = false)
    (hst : msg2subtitle (Registry.ready procs) m false none = .ok st)
    (hlk : msg2link (Registry.ready procs) m false none = .ok lk)
    (hic : msg2icon (Registry.ready procs) m false none = .ok ic)
    (hsi : msg2secondary_icon (Registry.ready procs) m false none = .ok si)
    (hts : Msg.lookup m "timestamp" = some ts)
    (hus : msg2usernames (Registry.ready procs) m false none = .ok us)
    (hpk : msg2packages (Registry.ready procs) m false none = .ok pk)
    (hidv : Msg.lookup m "msg_id" = some idv) :
    out[i]? = some
      [("subtitle", optStrToValue st), ("link", optStrToValue lk),
       ("icon", optStrToValue ic), ("secondary_icon", optStrToValue si),
       ("start_time", ts), ("end_time", ts), ("timestamp", ts),
       ("human_time", Value.s (humanize ts)),
       ("usernames", Value.vset us), ("packages", Value.vset pk),
       ("msg_ids", Value.vlist [idv])] := by
  unfold conglomerate at hok
  simp only [Registry.iterate, except_ok_bind, hrun] at hok
  obtain ⟨m', hwrap, hout⟩ :=
    wrapUngrouped_getElem (Registry.ready procs) humanize mid out hok i m hm hkey
  have heq : wrapSingleton (Registry.ready procs) humanize m = .ok
      [("subtitle", optStrToValue st), ("link", optStrToValue lk),
       ("icon", optStrToValue ic), ("secondary_icon", optStrToValue si),
       ("start_time", ts), ("end_time", ts), ("timestamp", ts),
       ("human_time", Value.s (humanize ts)),
       ("usernames", Value.vset us), ("packages", Value.vset pk),
       ("msg_ids", Value.vlist [idv])] := by
    unfold wrapSingleton
    simp [hst, hlk, hic, hsi, getItem, hts, hus, hpk, hidv]
  rw [heq] at hwrap
  injection hwrap with hwrap
  subst hwrap
  exact hout

/-- Witness for C8: for the concrete raw message `wMsgA` under the
Default-Processor-only registry, the synthesized record is exactly
`wRecordA`, with equal `start_time`, `end_time` and `timestamp` and the
singleton `msg_ids`. -/
theorem conglomerate_singleton_record_witness :
    (([wRecordA] : List Msg))[0]? = some wRecordA := by
  have h := conglomerate_singleton_record [DefaultProcessor] (fun _ => "now")
    [wMsgA] [wMsgA] [wRecordA] 0 wMsgA (some "") none none none
    (Value.i 100) (Value.s "id1") [] []
    rfl rfl rfl rfl rfl rfl rfl rfl rfl rfl rfl rfl
  exact h

end FedmsgMeta
